import Mathlib

/-!
Shallow embedding of the Canvas Accessibility Auditor content script
(content.js) and of the popup lifecycle it drives.

Conventions used throughout:
* JS strings are modelled by Lean `String` (a list of characters); the
  regular-expression search performed by `String.prototype.match` is
  modelled by an equivalent deterministic scanner over `String.data`.
* JS numbers appearing here are either small integers (modelled by `ℕ`)
  or the results of `Math.pow`/divisions inside the luminance formula,
  which are modelled by exact real arithmetic (`ℝ`), the idealised
  semantics of the floating-point source.
* DOM element references are modelled by the records carrying exactly the
  element data the script reads, plus a numeric reference where identity
  matters.
-/

/-- Whitespace class of the JS regex `\s` restricted to the characters that
can occur in computed-style strings (space, tab, newline, carriage return,
form feed, vertical tab). -/
def isSpc (c : Char) : Bool :=
  c = ' ' || c = '\t' || c = '\n' || c = '\r' || c = '\x0c' || c = '\x0b'

/-- Value of a digit string, as computed by JS `parseInt` on a `\d+` match. -/
def digitsVal (ds : List Char) : ℕ :=
  ds.foldl (fun acc c => 10 * acc + (c.toNat - '0'.toNat)) 0

/-- Head of the regex `rgba?\(`: consume `rgb(` or `rgba(` at the current
position, returning the remainder. -/
def stripRgbHead (cs : List Char) : Option (List Char) :=
  match cs with
  | 'r' :: 'g' :: 'b' :: 'a' :: '(' :: rest => some rest
  | 'r' :: 'g' :: 'b' :: '(' :: rest => some rest
  | _ => none

/-- Body of the regex `\s*(\d+)\s*,\s*(\d+)\s*,\s*(\d+)` after the opening
paren: three decimal capture groups separated by commas with optional
whitespace.  The character classes at each choice point are disjoint, so
this deterministic scanner computes exactly the regex match. -/
def parseBody (cs1 : List Char) : Option (ℕ × ℕ × ℕ) :=
  let cs2 := cs1.dropWhile isSpc
  match cs2.takeWhile Char.isDigit with
  | [] => none
  | d1 =>
    match (cs2.dropWhile Char.isDigit).dropWhile isSpc with
    | ',' :: cs4 =>
      let cs5 := cs4.dropWhile isSpc
      match cs5.takeWhile Char.isDigit with
      | [] => none
      | d2 =>
        match (cs5.dropWhile Char.isDigit).dropWhile isSpc with
        | ',' :: cs7 =>
          let cs8 := cs7.dropWhile isSpc
          match cs8.takeWhile Char.isDigit with
          | [] => none
          | d3 => some (digitsVal d1, digitsVal d2, digitsVal d3)
        | _ => none
    | _ => none

/-- Attempt to match the full pattern `rgba?\(\s*(\d+)\s*,\s*(\d+)\s*,\s*(\d+)`
at the current position. -/
def tryParse (cs : List Char) : Option (ℕ × ℕ × ℕ) :=
  match stripRgbHead cs with
  | some cs1 => parseBody cs1
  | none => none

/-- Leftmost regex match: try the pattern at every position, left to right,
exactly as `colorStr.match(/rgba?\(\s*(\d+)\s*,\s*(\d+)\s*,\s*(\d+)/)` does. -/
def searchRgb : List Char → Option (ℕ × ℕ × ℕ)
  | [] => none
  | c :: rest => (tryParse (c :: rest)).orElse (fun _ => searchRgb rest)

/-- content.js `parseRgb`: parse an rgb string into three channel values
divided by 255; an unmatched string defaults to white `[1, 1, 1]`. -/
def parseRgb (s : String) : ℚ × ℚ × ℚ :=
  match searchRgb s.data with
  | none => (1, 1, 1)
  | some (r, g, b) => ((r : ℚ) / 255, (g : ℚ) / 255, (b : ℚ) / 255)

/-- Per-channel sRGB transfer function from content.js `getLuminance`:
linear below the 0.03928 threshold, power 2.4 above. -/
noncomputable def srgbAdjust (v : ℝ) : ℝ :=
  if v ≤ 0.03928 then v / 12.92 else ((v + 0.055) / 1.055) ^ (2.4 : ℝ)

/-- content.js `getLuminance`: parse the color, adjust each channel, and
take the weighted sum 0.2126 R + 0.7152 G + 0.0722 B. -/
noncomputable def getLuminance (s : String) : ℝ :=
  let rgb := parseRgb s
  0.2126 * srgbAdjust (rgb.1 : ℝ) + 0.7152 * srgbAdjust (rgb.2.1 : ℝ) +
    0.0722 * srgbAdjust (rgb.2.2 : ℝ)

/-- JS `str.trim() === ""` holds exactly when every character of `str` is
whitespace; that all-whitespace test is how the emptiness-after-trimming
checks of content.js are embedded. -/
def trimEmpty (s : String) : Bool := s.data.all isSpc

/-- An `img` element as read by `checkAltText`: its `alt` attribute
(`getAttribute("alt")`, `none` when absent) and its resolved `src` property
(empty string when the image has no resource locator). -/
structure Img where
  alt : Option String
  src : String
deriving DecidableEq

/-- An entry pushed by content.js `checkAltText`: the offending element and
the display string `img.src || "(no src)"`. -/
structure AltIssue where
  element : Img
  src : String
deriving DecidableEq

/-- Condition of the push in `checkAltText`:
`altValue === null || altValue.trim() === ""`. -/
def altMissing (im : Img) : Bool :=
  match im.alt with
  | none => true
  | some a => trimEmpty a

/-- content.js `checkAltText`: one pass over all `img` elements in document
order, pushing an issue for every image with a missing or blank `alt`. -/
def checkAltText : List Img → List AltIssue
  | [] => []
  | im :: rest =>
    (if altMissing im then [⟨im, if im.src = "" then "(no src)" else im.src⟩] else [])
      ++ checkAltText rest

/-- An entry pushed by content.js `checkHeadings`.  `element` is the index
of the heading in document order; the tag strings `"H" + k` recorded by the
source are represented by their level number `k`. -/
structure HeadingIssue where
  element : ℕ
  currentLevel : ℕ
  previousLevel : ℕ
deriving DecidableEq

/-- Loop of content.js `checkHeadings`: `i` is the position of the next
heading, `lastLevel` the tracked level of the immediately preceding heading
(0 when there is none). -/
def checkHeadingsAux : ℕ → ℕ → List ℕ → List HeadingIssue
  | _, _, [] => []
  | i, lastLevel, level :: rest =>
    (if lastLevel ≠ 0 ∧ lastLevel + 1 < level then [⟨i, level, lastLevel⟩] else [])
      ++ checkHeadingsAux (i + 1) level rest

/-- content.js `checkHeadings` applied to the document-order list of heading
levels (`parseInt(tagName.charAt(1))` of each `h1..h6` element). -/
def checkHeadings (levels : List ℕ) : List HeadingIssue :=
  checkHeadingsAux 0 0 levels

/-- A DOM node as seen by `getBackgroundColor`: either the walk's stopping
point (the document root `document.documentElement`, or a null parent of a
detached subtree), or an element carrying its computed `backgroundColor`
and its parent. -/
inductive DomNode where
  | root : DomNode
  | node (bg : String) (parent : DomNode) : DomNode
deriving DecidableEq

/-- Loop condition of `getBackgroundColor`:
`bg && bg !== "rgba(0, 0, 0, 0)" && bg !== "transparent"` (the empty string
is the only falsy string). -/
def opaqueBg (bg : String) : Bool :=
  bg ≠ "" && bg ≠ "rgba(0, 0, 0, 0)" && bg ≠ "transparent"

/-- content.js `getBackgroundColor`: walk from the element itself up toward
(but not including) the document root, returning the first computed
background color that is not transparent, and `rgb(255, 255, 255)` when the
walk is exhausted. -/
def getBackgroundColor : DomNode → String
  | .root => "rgb(255, 255, 255)"
  | .node bg parent => if opaqueBg bg then bg else getBackgroundColor parent

/-- Computed background colors along the walk of `getBackgroundColor`, from
the element itself upward, excluding the root. -/
def bgChain : DomNode → List String
  | .root => []
  | .node bg parent => bg :: bgChain parent

/-- A text-bearing element as read by `checkContrast`: whether it is
rendered (`offsetParent !== null`), its `textContent`, its computed `color`,
and its position in the DOM tree (self plus ancestor chain) for background
resolution. -/
structure TextElem where
  rendered : Bool
  textContent : String
  color : String
  node : DomNode

/-- An entry pushed by content.js `checkContrast`. -/
structure ContrastIssue where
  element : TextElem
  color : String
  bg : String

/-- content.js `checkContrast`, with the luminance function as an explicit
parameter (the source closes over `getLuminance`): skip elements with no
layout box or blank text, resolve text and background colors, and flag the
element when text luminance exceeds 0.7 and background luminance exceeds
0.9. -/
noncomputable def checkContrastWith (lum : String → ℝ) : List TextElem → List ContrastIssue
  | [] => []
  | el :: rest =>
    if el.rendered = false then checkContrastWith lum rest
    else if trimEmpty el.textContent then checkContrastWith lum rest
    else
      let textColor := el.color
      let bgColor := getBackgroundColor el.node
      let textLuminance := lum textColor
      let bgLuminance := lum bgColor
      (if 0.7 < textLuminance ∧ 0.9 < bgLuminance then [⟨el, textColor, bgColor⟩] else [])
        ++ checkContrastWith lum rest

/-- content.js `checkContrast` as shipped: `checkContrastWith` applied to
the actual `getLuminance`. -/
noncomputable def checkContrast : List TextElem → List ContrastIssue :=
  checkContrastWith getLuminance

/-- Inline style of one element: the two properties `highlightElement`
touches (`el.style.outline` and `el.style.backgroundColor`). -/
structure ElemStyle where
  outline : String
  backgroundColor : String
deriving DecidableEq

/-- Inline styles of every element reference on the page.  A style object
belongs to its element, not to the document, so it stays readable and
writable even after the element is removed from the document — which is why
the map is total over references. -/
abbrev PageStyles : Type := ℕ → ElemStyle

/-- Assignment to one element's tracked style properties. -/
def styleUpdate (st : PageStyles) (el : ℕ) (s : ElemStyle) : PageStyles :=
  fun j => if j = el then s else st j

/-- The deferred restoration scheduled by `setTimeout`: the fixed delay in
milliseconds and the style mutation the callback performs when it fires. -/
structure HighlightTimer where
  delayMs : ℕ
  fire : PageStyles → PageStyles

/-- content.js `highlightElement`: capture the element's current outline
and background color, overwrite them with the red highlight, and schedule a
2000 ms timer whose callback writes the captured originals back.  The
`scrollIntoView` call changes no style and is not modelled. -/
def highlightElement (st : PageStyles) (el : ℕ) : PageStyles × HighlightTimer :=
  let oldOutline := (st el).outline
  let oldBg := (st el).backgroundColor
  (styleUpdate st el ⟨"3px solid red", "rgba(255, 0, 0, 0.1)"⟩,
   ⟨2000, fun cur => styleUpdate cur el ⟨oldOutline, oldBg⟩⟩)

/-- Document-level state the content script's lifecycle manipulates:
how many `#a11y-panel` overlay elements, injected `#a11y-panel-styles`
elements, and registered document-level `keydown` (`handleEsc`) listeners
exist. -/
structure PanelState where
  panels : ℕ
  styles : ℕ
  listeners : ℕ
deriving DecidableEq

/-- Externally observable events of the lifecycle: a scan (one run of the
content-script IIFE), a click on the current panel's close button, and an
Escape key press dispatched to the document. -/
inductive PanelEvent where
  | scan : PanelEvent
  | closeClick : PanelEvent
  | escape : PanelEvent

/-- One invocation of a registered `handleEsc` listener on an Escape
keydown: if `document.getElementById("a11y-panel")` finds a panel, remove
that panel and deregister this listener; otherwise do nothing (in
particular, the listener stays registered). -/
def handleEsc (s : PanelState) : PanelState :=
  if 0 < s.panels then
    { s with panels := s.panels - 1, listeners := s.listeners - 1 }
  else s

/-- An Escape keydown dispatched to the document runs every listener that
was registered when the event fired, each observing the state left by the
previous one. -/
def dispatchEscape (s : PanelState) : PanelState :=
  handleEsc^[s.listeners] s

/-- Lifecycle step function, from the content-script IIFE:
* `scan` removes the previous panel and style element if present (lines at
  the top of the IIFE), appends the new ones, and registers a fresh
  `handleEsc` keydown listener — without deregistering the old listener;
* `closeClick` runs the close button's handler, `panel.remove()` — again
  without deregistering the listener;
* `escape` dispatches an Escape keydown to the document. -/
def panelStep (s : PanelState) : PanelEvent → PanelState
  | .scan =>
    { panels := (if 0 < s.panels then s.panels - 1 else s.panels) + 1,
      styles := (if 0 < s.styles then s.styles - 1 else s.styles) + 1,
      listeners := s.listeners + 1 }
  | .closeClick => { s with panels := s.panels - 1 }
  | .escape => dispatchEscape s

/-- State of a fresh page: no overlay, no injected style, no listener. -/
def initialPanelState : PanelState := ⟨0, 0, 0⟩

/-- Lifecycle run: fold the step function over a sequence of events. -/
def runPanel (evts : List PanelEvent) : PanelState :=
  evts.foldl panelStep initialPanelState

/-- content.js `truncate`: cut a string to `maxLen` characters (default 60)
with a trailing ellipsis. -/
def truncate (str : String) (maxLen : ℕ := 60) : String :=
  if maxLen < str.length then (str.take maxLen) ++ "..." else str

/-- A clickable issue entry of the report panel (`li` element): its label,
the element reference its click handler highlights, and the element
reference its keydown handler highlights for a given key (`none` when the
key is not handled; a `some` result also models the `preventDefault`
call). -/
structure UIEntry where
  label : String
  click : ℕ
  keydown : String → Option ℕ

/-- One `li` built by the loop body of `createSection`: the IIFE
`(function(issueElement) { ... })(issues[i].element)` captures the current
issue's element by value, so both handlers are bound to exactly that
reference. -/
def mkEntry {α : Type} (elementOf : α → ℕ) (fmt : α → String) (issue : α) : UIEntry :=
  { label := fmt issue,
    click := elementOf issue,
    keydown := fun k => if k = "Enter" ∨ k = " " then some (elementOf issue) else none }

/-- A rendered report section. -/
structure UISection where
  title : String
  countText : String
  passMessage : Bool
  entries : List UIEntry
  advice : Option String

/-- content.js `createSection`: the section header with the pass badge or
issue count, then either the pass message or the clickable issue list plus
the advice box.  The duck-typed `issues[i].element` access of the source is
modelled by the explicit projection `elementOf`. -/
def createSection {α : Type} (title : String) (issues : List α)
    (elementOf : α → ℕ) (fmt : α → String) (adviceText : String) : UISection :=
  { title := title,
    countText :=
      if issues.length = 0 then "Pass"
      else toString issues.length ++ (if issues.length = 1 then " issue" else " issues"),
    passMessage := issues.length = 0,
    entries := if issues.length = 0 then [] else issues.map (mkEntry elementOf fmt),
    advice := if issues.length = 0 then none else some adviceText }

/-- Fallback entry used to state positional facts about the issue list
without dependent indexing. -/
def dummyEntry : UIEntry := ⟨"", 0, fun _ => none⟩

/-- A luminance assignment realising the concrete values named by the
contrast test scenario: text luminance 0.95, one background at luminance
0.98 and one at 0.5. -/
noncomputable def mockLum : String → ℝ :=
  fun s => if s = "text095" then 0.95 else if s = "bg098" then 0.98
    else if s = "bg05" then 0.5 else 0

/-- Rendered element with light text on a light (luminance 0.98)
background. -/
def eltLight : TextElem := ⟨true, "sample", "text095", .node "bg098" .root⟩

/-- Rendered element with light text on a mid (luminance 0.5) background. -/
def eltDark : TextElem := ⟨true, "sample", "text095", .node "bg05" .root⟩

/-- Element with no layout box (`offsetParent === null`). -/
def eltHidden : TextElem := ⟨false, "sample", "text095", .node "bg098" .root⟩

/-- Rendered element whose text content is whitespace only. -/
def eltBlank : TextElem := ⟨true, "   ", "text095", .node "bg098" .root⟩

/-- C1: the claim asks that after mounting a second report overlay while
one is present exactly one overlay element and exactly one document-level
Escape listener remain, the listener being deregistered on every exit
path.  The code removes the stale panel and style element but registers a
fresh `handleEsc` listener without deregistering the old one, so after two
scans one overlay but two listeners are registered; the close button also
leaves its listener behind; and even after an Escape dismissal of the
second overlay one orphaned listener survives forever. -/
theorem runPanel_listener_leak :
    runPanel [PanelEvent.scan, PanelEvent.scan] = ⟨1, 1, 2⟩ ∧
    (runPanel [PanelEvent.scan, PanelEvent.closeClick]).listeners = 1 ∧
    runPanel [PanelEvent.scan, PanelEvent.scan, PanelEvent.escape] = ⟨0, 1, 1⟩ := by
  refine ⟨?_, ?_, ?_⟩ <;> decide

/-- C3: `checkAltText` returns exactly one finding per image whose `alt`
attribute is absent or blank after trimming, in document order (it is the
filter of the document-order image list mapped to findings), so its length
is the count of such images; and a flagged image with no resource locator
gets the literal placeholder `(no src)`, never the empty string. -/
theorem checkAltText_spec (imgs : List Img) :
    checkAltText imgs =
      (imgs.filter altMissing).map
        (fun im => ⟨im, if im.src = "" then "(no src)" else im.src⟩) ∧
    (checkAltText imgs).length = (imgs.filter altMissing).length ∧
    ∀ iss ∈ checkAltText imgs, iss.element.src = "" →
      iss.src = "(no src)" ∧ iss.src ≠ "" := by
  have hmap : checkAltText imgs =
      (imgs.filter altMissing).map
        (fun im => (⟨im, if im.src = "" then "(no src)" else im.src⟩ : AltIssue)) := by
    induction imgs with
    | nil => rfl
    | cons im rest ih =>
      cases h : altMissing im <;>
        simp [checkAltText, h, ih, List.filter_cons]
  refine ⟨hmap, by rw [hmap]; simp, ?_⟩
  intro iss hmem hsrc
  rw [hmap] at hmem
  obtain ⟨im, hmem2, rfl⟩ := List.mem_map.1 hmem
  simp only at hsrc
  constructor
  · simp [hsrc]
  · simp [hsrc]

/-- C3 witness: the spec's scenario list — one image with no `alt` and no
`src`, one with a blank `alt`, one with a proper `alt`. -/
theorem checkAltText_spec_witness :
    checkAltText [⟨none, ""⟩, ⟨some " ", "a.png"⟩, ⟨some "logo", "b.png"⟩] =
      (([⟨none, ""⟩, ⟨some " ", "a.png"⟩, ⟨some "logo", "b.png"⟩] : List Img).filter
          altMissing).map
        (fun im => ⟨im, if im.src = "" then "(no src)" else im.src⟩) ∧
    (checkAltText [⟨none, ""⟩, ⟨some " ", "a.png"⟩, ⟨some "logo", "b.png"⟩]).length =
      (([⟨none, ""⟩, ⟨some " ", "a.png"⟩, ⟨some "logo", "b.png"⟩] : List Img).filter
          altMissing).length ∧
    ∀ iss ∈ checkAltText [⟨none, ""⟩, ⟨some " ", "a.png"⟩, ⟨some "logo", "b.png"⟩],
      iss.element.src = "" → iss.src = "(no src)" ∧ iss.src ≠ "" :=
  checkAltText_spec [⟨none, ""⟩, ⟨some " ", "a.png"⟩, ⟨some "logo", "b.png"⟩]

/-- Closed form of the `checkHeadings` loop: starting at position `i` with
tracked level `lastLevel`, an issue is produced at offset `k` exactly when
the previous level (the tracked one for `k = 0`, the `k - 1`-st heading
otherwise) is nonzero and smaller by more than one than the `k`-th level —
which also shows the tracked level is rebased to every heading's level,
issue or not. -/
theorem checkHeadingsAux_closed (lvls : List ℕ) : ∀ (i lastLevel : ℕ),
    checkHeadingsAux i lastLevel lvls =
      (List.range lvls.length).filterMap (fun k =>
        if (lastLevel :: lvls).getD k 0 ≠ 0 ∧
            (lastLevel :: lvls).getD k 0 + 1 < lvls.getD k 0
        then some ⟨i + k, lvls.getD k 0, (lastLevel :: lvls).getD k 0⟩ else none) := by
  induction lvls with
  | nil => intro i lastLevel; rfl
  | cons l rest ih =>
    intro i lastLevel
    rw [checkHeadingsAux, ih (i + 1) l, List.length_cons, List.range_succ_eq_map,
      List.filterMap_cons, List.filterMap_map]
    cases h : decide (lastLevel ≠ 0 ∧ lastLevel + 1 < l) with
    | false =>
      have h' : ¬(lastLevel ≠ 0 ∧ lastLevel + 1 < l) := of_decide_eq_false h
      simp only [List.getD_cons_zero, h', if_neg, List.nil_append, if_neg h']
      apply List.filterMap_congr
      intro k _
      simp only [Function.comp_apply, List.getD_cons_succ]
      rw [show i + (k + 1) = i + 1 + k by omega]
    | true =>
      have h' : lastLevel ≠ 0 ∧ lastLevel + 1 < l := of_decide_eq_true h
      simp only [List.getD_cons_zero, if_pos h', Nat.add_zero, List.singleton_append,
        List.cons.injEq]
      refine ⟨trivial, ?_⟩
      apply List.filterMap_congr
      intro k _
      simp only [Function.comp_apply, List.getD_cons_succ]
      rw [show i + (k + 1) = i + 1 + k by omega]

/-- C2: `checkHeadings` emits a finding at heading position `j` exactly
when a preceding heading exists (`0 < j`) and the `j`-th level exceeds the
immediately preceding level plus one, recording both levels — so the
tracked level is rebased after every heading — and a document whose heading
levels never increase produces no finding at all.  The hypothesis states
that the inputs are levels of `h1..h6` elements. -/
theorem checkHeadings_spec (levels : List ℕ) (h : ∀ l ∈ levels, 1 ≤ l ∧ l ≤ 6) :
    checkHeadings levels =
      (List.range levels.length).filterMap (fun j =>
        if 0 < j ∧ levels.getD (j - 1) 0 + 1 < levels.getD j 0
        then some ⟨j, levels.getD j 0, levels.getD (j - 1) 0⟩ else none) ∧
    (List.Chain' (fun a b => b ≤ a) levels → checkHeadings levels = []) := by
  have hmain : checkHeadings levels =
      (List.range levels.length).filterMap (fun j =>
        if 0 < j ∧ levels.getD (j - 1) 0 + 1 < levels.getD j 0
        then some ⟨j, levels.getD j 0, levels.getD (j - 1) 0⟩ else none) := by
    rw [checkHeadings, checkHeadingsAux_closed]
    apply List.filterMap_congr
    intro j hj
    have hjlen : j < levels.length := List.mem_range.1 hj
    cases j with
    | zero => simp
    | succ k =>
      have hklen : k < levels.length := by omega
      have hget : levels.getD k 0 = levels.get ⟨k, hklen⟩ := by
        rw [List.getD_eq_getElem _ _ hklen]; simp
      have hmem : levels.get ⟨k, hklen⟩ ∈ levels := List.get_mem levels k hklen
      have hne : levels.getD k 0 ≠ 0 := by
        rw [hget]
        have := (h _ hmem).1
        omega
      rw [List.getD_cons_succ, Nat.zero_add, Nat.succ_sub_one]
      have hcond : (levels.getD k 0 ≠ 0 ∧ levels.getD k 0 + 1 < levels.getD (k + 1) 0) ↔
          (0 < k + 1 ∧ levels.getD k 0 + 1 < levels.getD (k + 1) 0) := by
        constructor
        · rintro ⟨_, hp⟩; exact ⟨Nat.succ_pos k, hp⟩
        · rintro ⟨_, hp⟩; exact ⟨hne, hp⟩
      rw [if_congr hcond rfl rfl]
  refine ⟨hmain, fun hchain => ?_⟩
  rw [hmain, List.filterMap_eq_nil_iff]
  intro j hj
  cases j with
  | zero => simp
  | succ k =>
    have hjlen : k + 1 < levels.length := List.mem_range.1 hj
    have hklen : k < levels.length := by omega
    have hle : levels.get ⟨k + 1, hjlen⟩ ≤ levels.get ⟨k, hklen⟩ := by
      have := List.chain'_iff_get.1 hchain k (by omega)
      exact this
    have h1 : levels.getD (k + 1) 0 = levels.get ⟨k + 1, hjlen⟩ := by
      rw [List.getD_eq_getElem _ _ hjlen]; simp
    have h2 : levels.getD k 0 = levels.get ⟨k, hklen⟩ := by
      rw [List.getD_eq_getElem _ _ hklen]; simp
    have hneg : ¬(0 < k + 1 ∧ levels.getD (k + 1 - 1) 0 + 1 < levels.getD (k + 1) 0) := by
      simp only [Nat.succ_sub_one]
      rw [h1, h2]
      omega
    exact if_neg hneg

/-- C2 witness: the heading sequence H1, H3, H2, H1 — one skip at position
1, and the decreasing tail produces nothing. -/
theorem checkHeadings_spec_witness :
    (∀ l ∈ ([1, 3, 2, 1] : List ℕ), 1 ≤ l ∧ l ≤ 6) ∧
    (checkHeadings [1, 3, 2, 1] =
      (List.range ([1, 3, 2, 1] : List ℕ).length).filterMap (fun j =>
        if 0 < j ∧ ([1, 3, 2, 1] : List ℕ).getD (j - 1) 0 + 1 <
            ([1, 3, 2, 1] : List ℕ).getD j 0
        then some ⟨j, ([1, 3, 2, 1] : List ℕ).getD j 0,
          ([1, 3, 2, 1] : List ℕ).getD (j - 1) 0⟩ else none) ∧
    (List.Chain' (fun a b => b ≤ a) ([1, 3, 2, 1] : List ℕ) →
      checkHeadings [1, 3, 2, 1] = [])) :=
  ⟨by decide, checkHeadings_spec [1, 3, 2, 1] (by decide)⟩

/-- C7: `getBackgroundColor` returns the first non-transparent computed
background color on the walk from the element itself upward toward (and
excluding) the document root, and opaque white when the walk is exhausted
without finding one. -/
theorem getBackgroundColor_spec (n : DomNode) :
    getBackgroundColor n = ((bgChain n).find? opaqueBg).getD "rgb(255, 255, 255)" := by
  induction n with
  | root => rfl
  | node bg parent ih =>
    cases h : opaqueBg bg <;> simp [getBackgroundColor, bgChain, List.find?_cons, h, ih]

/-- C7 witness: a transparent element over an opaque gray parent resolves
to the parent's color; a fully transparent chain resolves to white. -/
theorem getBackgroundColor_spec_witness :
    getBackgroundColor (.node "rgba(0, 0, 0, 0)" (.node "rgb(128, 128, 128)" .root)) =
      (((bgChain (.node "rgba(0, 0, 0, 0)" (.node "rgb(128, 128, 128)" .root))).find?
          opaqueBg).getD "rgb(255, 255, 255)") :=
  getBackgroundColor_spec (.node "rgba(0, 0, 0, 0)" (.node "rgb(128, 128, 128)" .root))

/-- C8: `highlightElement` captures the element's current outline and
background before overwriting them, schedules the restoration at exactly
2000 ms, the fired restoration applied to the highlighted page gives back
exactly the original styles, neither the highlight nor the restoration
touches any other element, and the restoration is a total function that
writes the captured originals to the element's own style object whatever
happened in between — in particular, firing after the element was removed
from the document performs no page mutation and raises no error (a style
assignment on a detached element is well defined). -/
theorem highlightElement_spec (st : PageStyles) (el : ℕ) :
    (highlightElement st el).2.delayMs = 2000 ∧
    (highlightElement st el).2.fire (highlightElement st el).1 = st ∧
    (∀ j, j ≠ el → (highlightElement st el).1 j = st j) ∧
    (∀ cur : PageStyles, ∀ j, j ≠ el → (highlightElement st el).2.fire cur j = cur j) ∧
    (∀ cur : PageStyles, (highlightElement st el).2.fire cur el = st el) := by
  refine ⟨rfl, ?_, ?_, ?_, ?_⟩
  · funext j
    by_cases h : j = el
    · subst h; simp [highlightElement, styleUpdate]
    · simp [highlightElement, styleUpdate, h]
  · intro j h; simp [highlightElement, styleUpdate, h]
  · intro cur j h; simp [highlightElement, styleUpdate, h]
  · intro cur; simp [highlightElement, styleUpdate]

/-- C8 witness: the highlight/restore round trip on a concrete one-element
page. -/
theorem highlightElement_spec_witness :
    (highlightElement (fun _ => ⟨"2px solid blue", "white"⟩) 0).2.delayMs = 2000 ∧
    (highlightElement (fun _ => ⟨"2px solid blue", "white"⟩) 0).2.fire
        (highlightElement (fun _ => ⟨"2px solid blue", "white"⟩) 0).1 =
      (fun _ => ⟨"2px solid blue", "white"⟩) ∧
    (∀ j, j ≠ 0 →
      (highlightElement (fun _ => ⟨"2px solid blue", "white"⟩) 0).1 j =
        (fun _ => (⟨"2px solid blue", "white"⟩ : ElemStyle)) j) ∧
    (∀ cur : PageStyles, ∀ j, j ≠ 0 →
      (highlightElement (fun _ => ⟨"2px solid blue", "white"⟩) 0).2.fire cur j = cur j) ∧
    (∀ cur : PageStyles,
      (highlightElement (fun _ => ⟨"2px solid blue", "white"⟩) 0).2.fire cur 0 =
        (fun _ => (⟨"2px solid blue", "white"⟩ : ElemStyle)) 0) :=
  highlightElement_spec (fun _ => ⟨"2px solid blue", "white"⟩) 0

/-- The sRGB adjustment fixes 1: the power branch applies and its base is
exactly 1. -/
theorem srgbAdjust_one : srgbAdjust 1 = 1 := by
  rw [srgbAdjust, if_neg (by norm_num)]
  rw [show ((1 : ℝ) + 0.055) / 1.055 = 1 by norm_num, Real.one_rpow]

/-- The sRGB adjustment fixes 0: the linear branch applies. -/
theorem srgbAdjust_zero : srgbAdjust 0 = 0 := by
  rw [srgbAdjust, if_pos (by norm_num)]
  norm_num

/-- Luminance only depends on the parsed channel triple. -/
theorem getLuminance_congr {s t : String} (hp : parseRgb s = parseRgb t) :
    getLuminance s = getLuminance t := by
  simp only [getLuminance, hp]

/-- C5: `getLuminance` yields exactly 1 on pure white and exactly 0 on pure
black, and on every string the channel regex does not match it yields the
same value as explicit white — the parser's fail-soft default.  Every
function involved is total, so no input can abort the computation. -/
theorem getLuminance_anchors :
    getLuminance "rgb(255, 255, 255)" = 1 ∧
    getLuminance "rgb(0, 0, 0)" = 0 ∧
    ∀ s : String, searchRgb s.data = none →
      getLuminance s = getLuminance "rgb(255, 255, 255)" := by
  have hw : parseRgb "rgb(255, 255, 255)" = (1, 1, 1) := by
    have h : searchRgb "rgb(255, 255, 255)".data = some (255, 255, 255) := by decide
    simp only [parseRgb, h]
    norm_num
  have hb : parseRgb "rgb(0, 0, 0)" = (0, 0, 0) := by
    have h : searchRgb "rgb(0, 0, 0)".data = some (0, 0, 0) := by decide
    simp only [parseRgb, h]
    norm_num
  refine ⟨?_, ?_, ?_⟩
  · simp only [getLuminance, hw]
    norm_num [srgbAdjust_one]
  · simp only [getLuminance, hb]
    norm_num [srgbAdjust_zero]
  · intro s hs
    apply getLuminance_congr
    rw [hw]
    simp only [parseRgb, hs]

/-- C5 witness: `banana` is unparsable and evaluates like explicit white. -/
theorem getLuminance_anchors_witness :
    searchRgb "banana".data = none ∧
    getLuminance "banana" = getLuminance "rgb(255, 255, 255)" :=
  ⟨by decide, getLuminance_anchors.2.2 "banana" (by decide)⟩

/-- C6 counterexample: the claim says every input string parses to channel
intensities inside [0, 1], but the regex accepts any run of digits, so
`rgb(999, 0, 0)` parses to a red channel of 999/255 > 1. -/
theorem parseRgb_unit_violation : 1 < (parseRgb "rgb(999, 0, 0)").1 := by
  have h : searchRgb "rgb(999, 0, 0)".data = some (999, 0, 0) := by decide
  simp only [parseRgb, h]
  norm_num

/-- C6 amended: whenever the matched channel values are at most 255 — as
every computed-style color string guarantees — the parsed triple lies in
[0, 1] on every channel; unmatched strings yield the white default
(1, 1, 1), also inside the range. -/
theorem parseRgb_channels_unit (s : String)
    (h : match searchRgb s.data with
         | none => True
         | some (r, g, b) => r ≤ 255 ∧ g ≤ 255 ∧ b ≤ 255) :
    (0 ≤ (parseRgb s).1 ∧ (parseRgb s).1 ≤ 1) ∧
    (0 ≤ (parseRgb s).2.1 ∧ (parseRgb s).2.1 ≤ 1) ∧
    (0 ≤ (parseRgb s).2.2 ∧ (parseRgb s).2.2 ≤ 1) := by
  rcases hs : searchRgb s.data with _ | ⟨r, g, b⟩
  · simp [parseRgb, hs]
  · rw [hs] at h
    obtain ⟨h1, h2, h3⟩ := h
    simp only [parseRgb, hs]
    refine ⟨⟨?_, ?_⟩, ⟨?_, ?_⟩, ⟨?_, ?_⟩⟩
    · positivity
    · rw [div_le_one (by norm_num)]
      exact_mod_cast h1
    · positivity
    · rw [div_le_one (by norm_num)]
      exact_mod_cast h2
    · positivity
    · rw [div_le_one (by norm_num)]
      exact_mod_cast h3

/-- C6 amended witness: a computed-style string with all channels below
255. -/
theorem parseRgb_channels_unit_witness :
    (match searchRgb "rgb(12, 34, 56)".data with
     | none => True
     | some (r, g, b) => r ≤ 255 ∧ g ≤ 255 ∧ b ≤ 255) ∧
    ((0 ≤ (parseRgb "rgb(12, 34, 56)").1 ∧ (parseRgb "rgb(12, 34, 56)").1 ≤ 1) ∧
     (0 ≤ (parseRgb "rgb(12, 34, 56)").2.1 ∧ (parseRgb "rgb(12, 34, 56)").2.1 ≤ 1) ∧
     (0 ≤ (parseRgb "rgb(12, 34, 56)").2.2 ∧ (parseRgb "rgb(12, 34, 56)").2.2 ≤ 1)) :=
  ⟨show (12 : ℕ) ≤ 255 ∧ (34 : ℕ) ≤ 255 ∧ (56 : ℕ) ≤ 255 by decide,
   parseRgb_channels_unit "rgb(12, 34, 56)"
     (show (12 : ℕ) ≤ 255 ∧ (34 : ℕ) ≤ 255 ∧ (56 : ℕ) ≤ 255 by decide)⟩

/-- C4: for any luminance assignment, `checkContrastWith` flags exactly the
rendered elements with non-blank text whose text luminance exceeds 0.7 and
whose resolved background luminance exceeds 0.9, in document order — in
particular the shipped `checkContrast` does so with `getLuminance`; a text
luminance of 0.95 on background luminance 0.98 is flagged, 0.95 on 0.5 is
not, and elements with no layout box or whitespace-only text are
skipped. -/
theorem checkContrast_flags_iff :
    (∀ (lum : String → ℝ) (els : List TextElem),
      checkContrastWith lum els =
        (els.filter (fun el => el.rendered && !(trimEmpty el.textContent) &&
            decide (0.7 < lum el.color) &&
            decide (0.9 < lum (getBackgroundColor el.node)))).map
          (fun el => ⟨el, el.color, getBackgroundColor el.node⟩)) ∧
    (∀ els : List TextElem,
      checkContrast els =
        (els.filter (fun el => el.rendered && !(trimEmpty el.textContent) &&
            decide (0.7 < getLuminance el.color) &&
            decide (0.9 < getLuminance (getBackgroundColor el.node)))).map
          (fun el => ⟨el, el.color, getBackgroundColor el.node⟩)) ∧
    checkContrastWith mockLum [eltLight] = [⟨eltLight, "text095", "bg098"⟩] ∧
    checkContrastWith mockLum [eltDark] = [] ∧
    checkContrastWith mockLum [eltHidden, eltBlank] = [] := by
  have hgen : ∀ (lum : String → ℝ) (els : List TextElem),
      checkContrastWith lum els =
        (els.filter (fun el => el.rendered && !(trimEmpty el.textContent) &&
            decide (0.7 < lum el.color) &&
            decide (0.9 < lum (getBackgroundColor el.node)))).map
          (fun el => ⟨el, el.color, getBackgroundColor el.node⟩) := by
    intro lum els
    induction els with
    | nil => rfl
    | cons el rest ih =>
      cases hr : el.rendered
      · simp [checkContrastWith, hr, ih, List.filter_cons]
      · cases ht : trimEmpty el.textContent
        · by_cases hA : 0.7 < lum el.color
          · by_cases hB : 0.9 < lum (getBackgroundColor el.node)
            · simp [checkContrastWith, hr, ht, hA, hB, ih, List.filter_cons]
            · simp [checkContrastWith, hr, ht, hA, hB, ih, List.filter_cons]
          · simp [checkContrastWith, hr, ht, hA, ih, List.filter_cons]
        · simp [checkContrastWith, hr, ht, ih, List.filter_cons]
  have hl1 : mockLum "text095" = 0.95 := by simp [mockLum]
  have hl2 : mockLum "bg098" = 0.98 := by simp [mockLum]
  have hl3 : mockLum "bg05" = 0.5 := by simp [mockLum]
  have htxt : trimEmpty "sample" = false := by decide
  have hbgLight : getBackgroundColor (DomNode.node "bg098" DomNode.root) = "bg098" := by
    decide
  have hbgDark : getBackgroundColor (DomNode.node "bg05" DomNode.root) = "bg05" := by
    decide
  have hq1 : (0.7 : ℝ) < mockLum "text095" := by rw [hl1]; norm_num
  have hq2 : (0.9 : ℝ) < mockLum "bg098" := by rw [hl2]; norm_num
  have hq3 : mockLum "bg05" ≤ (0.9 : ℝ) := by rw [hl3]; norm_num
  refine ⟨hgen, fun els => hgen getLuminance els, ?_, ?_, ?_⟩
  · rw [hgen]
    simp [List.filter_cons, eltLight, htxt, hbgLight, hq1, hq2]
  · rw [hgen]
    simp [List.filter_cons, eltDark, htxt, hbgDark, hq1, hq3]
  · rw [hgen]
    have hblank : trimEmpty "   " = true := by decide
    simp [List.filter_cons, eltHidden, eltBlank, hblank]

/-- C9: each clickable entry built by `createSection` is bound to its own
issue's element — the value captured at entry-creation time — both for the
pointer click handler and for the keyboard handler, which reacts exactly to
Enter and Space and highlights the same element; in particular entry `i`
never aims at the final loop value. -/
theorem createSection_entry_targets {α : Type} (title : String) (issues : List α)
    (elementOf : α → ℕ) (fmt : α → String) (adviceText : String)
    (i : ℕ) (hi : i < issues.length) :
    ((createSection title issues elementOf fmt adviceText).entries.getD i dummyEntry).click
        = elementOf (issues.get ⟨i, hi⟩) ∧
    ∀ k : String,
      ((createSection title issues elementOf fmt adviceText).entries.getD i
          dummyEntry).keydown k
        = if k = "Enter" ∨ k = " " then some (elementOf (issues.get ⟨i, hi⟩)) else none := by
  have hne : ¬(issues.length = 0) := by omega
  have hent : (createSection title issues elementOf fmt adviceText).entries
      = issues.map (mkEntry elementOf fmt) := by
    simp [createSection, hne]
  have hlen : i < (issues.map (mkEntry elementOf fmt)).length := by simpa using hi
  have hgd : (issues.map (mkEntry elementOf fmt)).getD i dummyEntry
      = mkEntry elementOf fmt (issues.get ⟨i, hi⟩) := by
    rw [List.getD_eq_getElem _ _ hlen, List.getElem_map]
    congr 1
  rw [hent, hgd]
  exact ⟨rfl, fun k => rfl⟩

/-- C9 witness: a two-issue section; the first entry targets the first
issue's element, not the last one's. -/
theorem createSection_entry_targets_witness :
    (0 : ℕ) < ([7, 8] : List ℕ).length ∧
    (((createSection "T" [7, 8] id (fun _ => "x") "advice").entries.getD 0
        dummyEntry).click = id (([7, 8] : List ℕ).get ⟨0, by decide⟩) ∧
     ∀ k : String,
       ((createSection "T" [7, 8] id (fun _ => "x") "advice").entries.getD 0
           dummyEntry).keydown k
         = if k = "Enter" ∨ k = " " then
             some (id (([7, 8] : List ℕ).get ⟨0, by decide⟩)) else none) :=
  ⟨by decide, createSection_entry_targets "T" [7, 8] id (fun _ => "x") "advice" 0 (by decide)⟩

/-- Scanning combinator fact: `takeWhile`/`dropWhile` split a list that
starts with a satisfying block exactly at the first non-satisfying
character. -/
theorem takeWhile_dropWhile_append {α : Type} (p : α → Bool) (d : List α) :
    ∀ suf : List α, (∀ c ∈ d, p c = true) →
      (∀ c, suf.head? = some c → p c = false) →
      (d ++ suf).takeWhile p = d ∧ (d ++ suf).dropWhile p = suf := by
  induction d with
  | nil =>
    intro suf _ hs
    cases suf with
    | nil => exact ⟨rfl, rfl⟩
    | cons c t =>
      have hc : p c = false := hs c rfl
      simp [List.takeWhile_cons, List.dropWhile_cons, hc]
  | cons a d ih =>
    intro suf hd hs
    have ha : p a = true := hd a (List.mem_cons_self a d)
    have hrest := ih suf (fun c hc => hd c (List.mem_cons_of_mem a hc)) hs
    simp [List.takeWhile_cons, List.dropWhile_cons, ha, hrest.1, hrest.2]

/-- A decimal digit is not in the whitespace class of `\s`. -/
theorem isSpc_eq_false_of_isDigit {c : Char} (h : c.isDigit = true) :
    isSpc c = false := by
  cases hs : isSpc c
  · rfl
  · exfalso
    rw [isSpc] at hs
    simp only [Bool.or_eq_true, decide_eq_true_eq] at hs
    rcases hs with ((((h1 | h1) | h1) | h1) | h1) | h1 <;> subst h1 <;>
      exact absurd h (by decide)

/-- The scanner for the regex body computes the three capture groups of a
canonically shaped argument — three digit blocks with optional leading
whitespace, comma separated — independently of everything after the third
block, provided the trailing part does not start with a digit. -/
theorem parseBody_canonical (w0 w1 w2 r g b suf : List Char)
    (hw0 : ∀ c ∈ w0, isSpc c = true) (hw1 : ∀ c ∈ w1, isSpc c = true)
    (hw2 : ∀ c ∈ w2, isSpc c = true)
    (hr : r ≠ []) (hrd : ∀ c ∈ r, c.isDigit = true)
    (hg : g ≠ []) (hgd : ∀ c ∈ g, c.isDigit = true)
    (hb : b ≠ []) (hbd : ∀ c ∈ b, c.isDigit = true)
    (hsuf : ∀ c, suf.head? = some c → c.isDigit = false) :
    parseBody (w0 ++ (r ++ ',' :: (w1 ++ (g ++ ',' :: (w2 ++ (b ++ suf))))))
      = some (digitsVal r, digitsVal g, digitsVal b) := by
  rcases r with _ | ⟨rh, rt⟩
  · exact absurd rfl hr
  rcases g with _ | ⟨gh, gt⟩
  · exact absurd rfl hg
  rcases b with _ | ⟨bh, bt⟩
  · exact absurd rfl hb
  have hrh : Char.isDigit rh = true := hrd rh (List.mem_cons_self rh rt)
  have hgh : Char.isDigit gh = true := hgd gh (List.mem_cons_self gh gt)
  have hbh : Char.isDigit bh = true := hbd bh (List.mem_cons_self bh bt)
  have E1 := takeWhile_dropWhile_append isSpc w0
    ((rh :: rt) ++ ',' :: (w1 ++ ((gh :: gt) ++ ',' :: (w2 ++ ((bh :: bt) ++ suf)))))
    hw0 (by intro c hc; cases hc; exact isSpc_eq_false_of_isDigit hrh)
  have E2 := takeWhile_dropWhile_append Char.isDigit (rh :: rt)
    (',' :: (w1 ++ ((gh :: gt) ++ ',' :: (w2 ++ ((bh :: bt) ++ suf)))))
    hrd (by intro c hc; cases hc; decide)
  have E4 : List.dropWhile isSpc
      (',' :: (w1 ++ ((gh :: gt) ++ ',' :: (w2 ++ ((bh :: bt) ++ suf)))))
      = ',' :: (w1 ++ ((gh :: gt) ++ ',' :: (w2 ++ ((bh :: bt) ++ suf)))) := by
    rw [List.dropWhile_cons, show isSpc ',' = false from by decide]
    simp
  have E5 := takeWhile_dropWhile_append isSpc w1
    ((gh :: gt) ++ ',' :: (w2 ++ ((bh :: bt) ++ suf)))
    hw1 (by intro c hc; cases hc; exact isSpc_eq_false_of_isDigit hgh)
  have E6 := takeWhile_dropWhile_append Char.isDigit (gh :: gt)
    (',' :: (w2 ++ ((bh :: bt) ++ suf)))
    hgd (by intro c hc; cases hc; decide)
  have E8 : List.dropWhile isSpc (',' :: (w2 ++ ((bh :: bt) ++ suf)))
      = ',' :: (w2 ++ ((bh :: bt) ++ suf)) := by
    rw [List.dropWhile_cons, show isSpc ',' = false from by decide]
    simp
  have E9 := takeWhile_dropWhile_append isSpc w2 ((bh :: bt) ++ suf)
    hw2 (by intro c hc; cases hc; exact isSpc_eq_false_of_isDigit hbh)
  have E10 := takeWhile_dropWhile_append Char.isDigit (bh :: bt) suf hbd
    (by intro c hc; exact Bool.eq_false_iff.2 (fun hd => by
      have := hsuf c hc; rw [hd] at this; exact absurd this (by decide)))
  simp only [parseBody, E1.2, E2.1, E2.2, E4, E5.2, E6.1, E6.2, E8, E9.2, E10.1]

/-- Evaluation of `parseRgb` through a successful leftmost match. -/
theorem parseRgb_mk (cs : List Char) (t : ℕ × ℕ × ℕ) (h : searchRgb cs = some t) :
    parseRgb (String.mk cs) = ((t.1 : ℚ) / 255, (t.2.1 : ℚ) / 255, (t.2.2 : ℚ) / 255) := by
  simp only [parseRgb]
  rw [h]

/-- C10: an `rgba(r, g, b, a)` string and the `rgb(r, g, b)` string with the
same three channel blocks parse to the same channel triple whatever the
alpha component is — the fourth component is never read — and consequently
`getLuminance` returns the same value on both. -/
theorem parseRgb_alpha_blind (r g b alpha w0 w1 w2 : List Char)
    (hw0 : ∀ c ∈ w0, isSpc c = true) (hw1 : ∀ c ∈ w1, isSpc c = true)
    (hw2 : ∀ c ∈ w2, isSpc c = true)
    (hr : r ≠ []) (hrd : ∀ c ∈ r, c.isDigit = true)
    (hg : g ≠ []) (hgd : ∀ c ∈ g, c.isDigit = true)
    (hb : b ≠ []) (hbd : ∀ c ∈ b, c.isDigit = true) :
    parseRgb (String.mk ('r' :: 'g' :: 'b' :: 'a' :: '(' ::
        (w0 ++ (r ++ ',' :: (w1 ++ (g ++ ',' :: (w2 ++ (b ++ ',' :: alpha))))))))
      = parseRgb (String.mk ('r' :: 'g' :: 'b' :: '(' ::
        (w0 ++ (r ++ ',' :: (w1 ++ (g ++ ',' :: (w2 ++ (b ++ [')'])))))))) ∧
    getLuminance (String.mk ('r' :: 'g' :: 'b' :: 'a' :: '(' ::
        (w0 ++ (r ++ ',' :: (w1 ++ (g ++ ',' :: (w2 ++ (b ++ ',' :: alpha))))))))
      = getLuminance (String.mk ('r' :: 'g' :: 'b' :: '(' ::
        (w0 ++ (r ++ ',' :: (w1 ++ (g ++ ',' :: (w2 ++ (b ++ [')'])))))))) := by
  have hpa := parseBody_canonical w0 w1 w2 r g b (',' :: alpha) hw0 hw1 hw2
    hr hrd hg hgd hb hbd (by intro c hc; cases hc; decide)
  have hpb := parseBody_canonical w0 w1 w2 r g b [')'] hw0 hw1 hw2
    hr hrd hg hgd hb hbd (by intro c hc; cases hc; decide)
  have h1 : searchRgb ('r' :: 'g' :: 'b' :: 'a' :: '(' ::
      (w0 ++ (r ++ ',' :: (w1 ++ (g ++ ',' :: (w2 ++ (b ++ ',' :: alpha)))))))
      = some (digitsVal r, digitsVal g, digitsVal b) := by
    simp only [searchRgb, tryParse, stripRgbHead, hpa, Option.orElse]
  have h2 : searchRgb ('r' :: 'g' :: 'b' :: '(' ::
      (w0 ++ (r ++ ',' :: (w1 ++ (g ++ ',' :: (w2 ++ (b ++ [')'])))))))
      = some (digitsVal r, digitsVal g, digitsVal b) := by
    simp only [searchRgb, tryParse, stripRgbHead, hpb, Option.orElse]
  have hq1 := parseRgb_mk _ _ h1
  have hq2 := parseRgb_mk _ _ h2
  have hpp : parseRgb (String.mk ('r' :: 'g' :: 'b' :: 'a' :: '(' ::
      (w0 ++ (r ++ ',' :: (w1 ++ (g ++ ',' :: (w2 ++ (b ++ ',' :: alpha))))))))
      = parseRgb (String.mk ('r' :: 'g' :: 'b' :: '(' ::
      (w0 ++ (r ++ ',' :: (w1 ++ (g ++ ',' :: (w2 ++ (b ++ [')'])))))))) := by
    rw [hq1, hq2]
  exact ⟨hpp, getLuminance_congr hpp⟩

/-- C10 witness: `rgba(10, 20, 30, 0.5)` and `rgb(10, 20, 30)` parse to the
same triple and get the same luminance. -/
theorem parseRgb_alpha_blind_witness :
    (∀ c ∈ ([] : List Char), isSpc c = true) ∧
    (∀ c ∈ ([' '] : List Char), isSpc c = true) ∧
    (['1', '0'] : List Char) ≠ [] ∧
    (∀ c ∈ (['1', '0'] : List Char), c.isDigit = true) ∧
    (['2', '0'] : List Char) ≠ [] ∧
    (∀ c ∈ (['2', '0'] : List Char), c.isDigit = true) ∧
    (['3', '0'] : List Char) ≠ [] ∧
    (∀ c ∈ (['3', '0'] : List Char), c.isDigit = true) ∧
    (parseRgb "rgba(10, 20, 30, 0.5)" = parseRgb "rgb(10, 20, 30)" ∧
     getLuminance "rgba(10, 20, 30, 0.5)" = getLuminance "rgb(10, 20, 30)") :=
  ⟨by decide, by decide, by decide, by decide, by decide, by decide, by decide, by decide,
   parseRgb_alpha_blind ['1', '0'] ['2', '0'] ['3', '0'] (" 0.5)".data) [] [' '] [' ']
     (by decide) (by decide) (by decide) (by decide) (by decide) (by decide) (by decide)
     (by decide) (by decide)⟩
